import Mathlib

/-!
# Verification of the Swerve chunked delivery protocol

A shallow embedding of the chunked, fallback-aware delivery protocol of the
Swerve repository, together with proofs about it.

Embedded code:
* `splitIntoChunks`        — examples/test-chunking.js, lines 12–21
* transport fallback loop  — bookmarklet source (`sendWithFallbacks`,
  `isCSPError`, the three tier senders), lines 84–230
* ingestion server         — examples/server.js (`app.post('/ingest')`,
  `handleFinalization`, `reassembleChunks`, `extractMetadata`)

JavaScript strings are modelled as lists of code units (`List Char`); numbers
appearing as indices and counters are modelled as `Nat` (the source only ever
holds non-negative integers in them).  JavaScript `Map` objects are modelled as
insertion-ordered association lists with the `get` / `set` / `has` operations
defined below.  Timestamps (`Date.now()`, `toISOString()`) are opaque inputs,
passed as an explicit `now : Nat` argument.
-/

namespace Swerve

/-- A JavaScript string, as a list of code units. -/
abbrev JStr := List Char

/-! ## JavaScript `Map` semantics: insertion-ordered association lists

`Map.prototype.get` returns the value stored under a key; `set` overwrites in
place when the key is present and appends otherwise; `has` tests presence.
Keys are unique by construction of `mapSet`. -/

/-- `Map.prototype.get`. -/
def mapGet {K V : Type} [DecidableEq K] : List (K × V) → K → Option V
  | [], _ => none
  | (k', v) :: rest, k => if k' = k then some v else mapGet rest k

/-- `Map.prototype.set`: overwrite in place, or append when absent. -/
def mapSet {K V : Type} [DecidableEq K] : List (K × V) → K → V → List (K × V)
  | [], k, v => [(k, v)]
  | (k', v') :: rest, k, v =>
      if k' = k then (k, v) :: rest else (k', v') :: mapSet rest k v

/-- `Map.prototype.has`. -/
def mapHas {K V : Type} [DecidableEq K] (m : List (K × V)) (k : K) : Bool :=
  (mapGet m k).isSome

theorem mapGet_mapSet_self {K V : Type} [DecidableEq K]
    (m : List (K × V)) (k : K) (v : V) : mapGet (mapSet m k v) k = some v := by
  induction m with
  | nil => simp [mapGet, mapSet]
  | cons p rest ih =>
      obtain ⟨k', v'⟩ := p
      by_cases h : k' = k <;> simp [mapGet, mapSet, h, ih]

theorem mapGet_mapSet_ne {K V : Type} [DecidableEq K]
    (m : List (K × V)) {k k' : K} (v : V) (h : k ≠ k') :
    mapGet (mapSet m k v) k' = mapGet m k' := by
  induction m with
  | nil => simp [mapGet, mapSet, h]
  | cons p rest ih =>
      obtain ⟨k₀, v₀⟩ := p
      by_cases h₀ : k₀ = k
      · subst h₀; simp [mapGet, mapSet, h]
      · simp only [mapSet, if_neg h₀, mapGet]
        by_cases h₁ : k₀ = k' <;> simp [h₁, ih]

theorem mapSet_of_not_mem {K V : Type} [DecidableEq K]
    (m : List (K × V)) {k : K} (v : V) (h : mapGet m k = none) :
    mapSet m k v = m ++ [(k, v)] := by
  induction m with
  | nil => simp [mapSet]
  | cons p rest ih =>
      obtain ⟨k', v'⟩ := p
      by_cases h' : k' = k
      · simp [mapGet, h'] at h
      · simp only [mapGet, if_neg h'] at h
        simp [mapSet, h', ih h]

theorem length_mapSet_of_mem {K V : Type} [DecidableEq K]
    (m : List (K × V)) {k : K} (v : V) (h : (mapGet m k).isSome) :
    (mapSet m k v).length = m.length := by
  induction m with
  | nil => simp [mapGet] at h
  | cons p rest ih =>
      obtain ⟨k', v'⟩ := p
      by_cases h' : k' = k
      · simp [mapSet, h']
      · simp only [mapGet, if_neg h'] at h
        simp [mapSet, h', ih h]

theorem mapSet_mapSet_self {K V : Type} [DecidableEq K]
    (m : List (K × V)) (k : K) (v w : V) :
    mapSet (mapSet m k v) k w = mapSet m k w := by
  induction m with
  | nil => simp [mapSet]
  | cons p rest ih =>
      obtain ⟨k', v'⟩ := p
      by_cases h : k' = k <;> simp [mapSet, h, ih]

/-! ## The chunk splitter

`splitIntoChunks` from examples/test-chunking.js:

```js
function splitIntoChunks(content, chunkSize) {
  const chunks = [];
  let offset = 0;
  while (offset < content.length) {
    const chunk = content.slice(offset, offset + chunkSize);
    chunks.push(chunk);
    offset += chunkSize;
  }
  return chunks;
}
```

For `chunkSize = 0` the JavaScript loop does not terminate; the model returns
`[]` in that case, and every theorem below assumes `0 < chunkSize`. -/

def splitIntoChunks (content : JStr) (chunkSize : Nat) : List JStr :=
  if h : 0 < chunkSize ∧ content ≠ [] then
    content.take chunkSize :: splitIntoChunks (content.drop chunkSize) chunkSize
  else []
termination_by content.length
decreasing_by
  simp only [List.length_drop]
  have : 0 < content.length := List.length_pos.mpr h.2
  omega

theorem splitIntoChunks_nil (c : Nat) : splitIntoChunks [] c = [] := by
  rw [splitIntoChunks]; simp

theorem splitIntoChunks_pos (content : JStr) (c : Nat)
    (hc : 0 < c) (hne : content ≠ []) :
    splitIntoChunks content c
      = content.take c :: splitIntoChunks (content.drop c) c := by
  rw [splitIntoChunks]; simp [hc, hne]

/-- Concatenating the splitter's chunks in order recovers the input. -/
theorem flatten_splitIntoChunks (content : JStr) (c : Nat) (hc : 0 < c) :
    (splitIntoChunks content c).flatten = content := by
  by_cases hne : content = []
  · subst hne; simp [splitIntoChunks_nil]
  · rw [splitIntoChunks_pos content c hc hne]
    have ih := flatten_splitIntoChunks (content.drop c) c hc
    simp [List.flatten_cons, ih]
termination_by content.length
decreasing_by
  simp only [List.length_drop]
  have : 0 < content.length := List.length_pos.mpr hne
  omega

/-- The splitter produces `⌈len/c⌉` chunks. -/
theorem length_splitIntoChunks (content : JStr) (c : Nat) (hc : 0 < c) :
    (splitIntoChunks content c).length = (content.length + c - 1) / c := by
  by_cases hne : content = []
  · subst hne
    rw [splitIntoChunks_nil]
    simp only [List.length_nil, Nat.zero_add]
    exact (Nat.div_eq_of_lt (by omega)).symm
  · rw [splitIntoChunks_pos content c hc hne]
    have hpos : 0 < content.length := List.length_pos.mpr hne
    have ih := length_splitIntoChunks (content.drop c) c hc
    simp only [List.length_cons, ih, List.length_drop]
    by_cases hle : content.length ≤ c
    · have h1 : content.length - c = 0 := by omega
      have h2 : (content.length + c - 1) / c = 1 :=
        Nat.div_eq_of_lt_le (by omega) (by omega)
      rw [h1, h2]
      simp [Nat.div_eq_of_lt (show c - 1 < c by omega)]
    · push_neg at hle
      have h1 : content.length - c + c - 1 = content.length - 1 := by omega
      have h2 : content.length + c - 1 = content.length - 1 + c := by omega
      rw [h1, h2, Nat.add_div_right _ hc]
termination_by content.length
decreasing_by
  simp only [List.length_drop]
  have : 0 < content.length := List.length_pos.mpr hne
  omega

/-- A payload that fits in one chunk is returned whole. -/
theorem splitIntoChunks_single (content : JStr) (c : Nat)
    (hne : content ≠ []) (hle : content.length ≤ c) :
    splitIntoChunks content c = [content] := by
  have hc : 0 < c := lt_of_lt_of_le (List.length_pos.mpr hne) hle
  rw [splitIntoChunks_pos content c hc hne, List.take_of_length_le hle,
    List.drop_eq_nil_of_le hle, splitIntoChunks_nil]

/-! ## Transport tiers and the fallback selector

From the bookmarklet source (`sendWithFallbacks`, `isCSPError`,
`sendViaFetch`, `sendViaBeacon`, `sendViaFormPost`).  Each tier either
resolves to a `{ success, data }` object or throws an `Error`; which of the
two happens is decided by the environment (network, CSP), so the model takes
the three tier outcomes as inputs and embeds the selection loop:

```js
for (let i = 0; i < methods.length; i++) {
  try {
    const result = await methods[i]();
    if (result.success) return result;
  } catch (error) {
    if (isCSPError(error)) {
      if (i === methods.length - 1)
        return { success: false, error: "CSP_BLOCKED", guidance: getCSPGuidance() };
      continue;
    }
    if (i < methods.length - 1) continue;
    throw error;
  }
}
return { success: false, error: "All transport methods failed" };
```

`getCSPGuidance()` reads only the configured endpoint and the page location,
never the attempt history, so the guidance record is an input of the model. -/

/-- A JavaScript `Error`: a `name` and a `message`. -/
structure JsError where
  name : String
  message : String
deriving DecidableEq

/-- The `data` field of a tier's resolved value: Tier 1 resolves the parsed
server acknowledgment, Tiers 2 and 3 resolve a `{ method: ... }` tag. -/
inductive RespData where
  | serverAck (raw : String)
  | methodTag (m : String)
deriving DecidableEq

/-- A tier's resolved value `{ success, data }`. -/
structure SendResult where
  success : Bool
  data : RespData
deriving DecidableEq

/-- One tier invocation either resolves or throws. -/
inductive TierOutcome where
  | ok (r : SendResult)
  | err (e : JsError)
deriving DecidableEq

/-- The record built by `getCSPGuidance()`. -/
structure Guidance where
  message : String
  alternatives : List String
  helperUrl : String
deriving DecidableEq

/-- The possible results of `sendWithFallbacks`, one constructor per exit
point of the source: a successful tier result, the terminal
`{ success:false, error:"CSP_BLOCKED", guidance }` object, a rethrown error,
and the fall-through `{ success:false, error:"All transport methods failed" }`. -/
inductive FallbackResult where
  | success (r : SendResult)
  | cspBlocked (guidance : Guidance)
  | thrown (e : JsError)
  | allFailed
deriving DecidableEq

/-- `string.includes(sub)`: substring containment on code units. -/
def includesAux (pat : List Char) : List Char → Bool
  | [] => pat.isEmpty
  | c :: rest => pat.isPrefixOf (c :: rest) || includesAux pat rest

/-- `String.prototype.includes`. -/
def jsIncludes (s pat : String) : Bool := includesAux pat.toList s.toList

/-- `String.prototype.toLowerCase` (the messages involved are ASCII). -/
def jsToLowerCase (s : String) : String := String.mk (s.toList.map Char.toLower)

/-- `isCSPError` from the bookmarklet source:

```js
function isCSPError(error) {
  const message = error.message.toLowerCase();
  return message.includes('csp') ||
         message.includes('content security policy') ||
         message.includes('blocked by content security policy') ||
         (error.name === 'TypeError' && message.includes('failed to fetch'));
}
``` -/
def isCSPError (e : JsError) : Bool :=
  let message := jsToLowerCase e.message
  jsIncludes message "csp" ||
    jsIncludes message "content security policy" ||
    jsIncludes message "blocked by content security policy" ||
    (e.name == "TypeError" && jsIncludes message "failed to fetch")

/-- The selection loop of `sendWithFallbacks`, over the list of remaining
tier outcomes.  An empty `rest` means the current tier is the last one
(`i === methods.length - 1`). -/
def runFallbacks (g : Guidance) : List TierOutcome → FallbackResult
  | [] => .allFailed
  | .ok r :: rest => if r.success then .success r else runFallbacks g rest
  | .err e :: rest =>
      if isCSPError e then
        if rest = [] then .cspBlocked g else runFallbacks g rest
      else
        if rest = [] then .thrown e else runFallbacks g rest

/-- How many tiers the loop invokes before stopping (each loop iteration
calls `methods[i]()` exactly once). -/
def attemptsUsed : List TierOutcome → Nat
  | [] => 0
  | .ok r :: rest => if r.success then 1 else 1 + attemptsUsed rest
  | .err _ :: rest => if rest = [] then 1 else 1 + attemptsUsed rest

/-- `sendWithFallbacks` over the ordered method array
`[sendViaFetch, sendViaBeacon, sendViaFormPost]`. -/
def sendWithFallbacks (g : Guidance) (t1 t2 t3 : TierOutcome) : FallbackResult :=
  runFallbacks g [t1, t2, t3]

/-- The value `sendViaFormPost` resolves with on success
(`{ success: true, data: { method: "form-post" } }`). -/
def formPostResolve : SendResult := ⟨true, .methodTag "form-post"⟩

/-- The value `sendViaBeacon` resolves with on success
(`{ success: true, data: { method: "beacon" } }`). -/
def beaconResolve : SendResult := ⟨true, .methodTag "beacon"⟩

/-! ## The ingestion server

From examples/server.js.  The wire messages are JSON; the model uses typed
records for the two payload shapes the handler distinguishes (a chunk message
and a `type: "finalization"` message).  JavaScript falsiness of the checked
string fields (`!payload.version`, `!jobId`) is the test against the empty
string; the express-level checks `!payload` and
`!payload.transfer || !payload.transfer.chunk` are discharged by the typing of
the message. -/

/-- The `page` object captured by the bookmarklet (opaque to the server). -/
structure PageInfo where
  url : String
  title : String
deriving DecidableEq

/-- The `client` object captured by the bookmarklet (opaque to the server). -/
structure ClientInfo where
  bookmarkletVersion : String
  language : String
deriving DecidableEq

/-- A chunk message posted to `/ingest`: `jobId`, `transfer.chunk`
(`index`, `count`, `total`, `isLast`), `snapshot.html` and the metadata
fields.  `total` is `Option Nat` because the field may be absent. -/
structure ChunkMsg where
  version : String
  jobId : String
  page : PageInfo
  selectionText : String
  selectionHtml : String
  capturedAt : String
  client : ClientInfo
  html : JStr
  index : Nat
  count : Nat
  total : Option Nat
  isLast : Bool
deriving DecidableEq

/-- A `type: "finalization"` message; the handler reads only `jobId`
(and the top-level `version` check applies to it as well). -/
structure FinMsg where
  version : String
  jobId : String
deriving DecidableEq

/-- A payload posted to `/ingest`; the dispatch on
`payload.type === 'finalization'` becomes the constructor. -/
inductive IngestMsg where
  | chunk (c : ChunkMsg)
  | fin (f : FinMsg)
deriving DecidableEq

/-- The metadata record built by `extractMetadata` from the first chunk. -/
structure Meta where
  version : String
  jobId : String
  page : PageInfo
  selectionText : String
  selectionHtml : String
  capturedAt : String
  client : ClientInfo
deriving DecidableEq

/-- `extractMetadata(payload)`. -/
def extractMetadata (c : ChunkMsg) : Meta :=
  { version := c.version
    jobId := c.jobId
    page := c.page
    selectionText := c.selectionText
    selectionHtml := c.selectionHtml
    capturedAt := c.capturedAt
    client := c.client }

/-- One stored chunk: `{ html, receivedAt }`. -/
structure ChunkRec where
  html : JStr
  receivedAt : Nat
deriving DecidableEq

/-- The complete capture object built by `reassembleChunks`. -/
structure Capture where
  meta : Meta
  html : JStr
  chunksCount : Nat
  reassembledAt : Nat
  processingTimeMs : Nat
deriving DecidableEq

/-- A `chunkStore` entry.  `finalized`, `finalizedAt`, `reassembled` and
`completeCapture` start out absent (JavaScript `undefined`, falsy) and are
modelled by their defaults. -/
structure JobData where
  chunks : List (Nat × ChunkRec)
  metadata : Meta
  receivedChunks : Nat
  totalExpected : Nat
  startTime : Nat
  finalized : Bool
  finalizedAt : Option Nat
  reassembled : Bool
  completeCapture : Option Capture
deriving DecidableEq

/-- The in-memory `chunkStore` map. -/
abbrev Store := List (String × JobData)

/-- The structured HTTP responses of `/ingest`, one constructor per response
site of the source. -/
inductive Resp where
  | badRequest (error : String)
  | notFound (error : String)
  | accepted (jobId : String) (trackUrl : String) (chunkReceived : Nat)
      (totalChunks : Nat) (isComplete : Bool)
  | finalizedOk (jobId : String) (chunksReceived : Nat) (totalExpected : Nat)
deriving DecidableEq

/-- JavaScript `a || b` on the numeric `total` field: `undefined` and `0`
are falsy. -/
def jsOrNat (a : Option Nat) (b : Nat) : Nat :=
  match a with
  | some n => if n = 0 then b else n
  | none => b

/-- The job created on first contact:

```js
chunkStore.set(jobId, {
  chunks: new Map(),
  metadata: extractMetadata(payload),
  receivedChunks: 0,
  totalExpected: total || count,
  startTime: Date.now()
});
``` -/
def newJob (c : ChunkMsg) (now : Nat) : JobData :=
  { chunks := []
    metadata := extractMetadata c
    receivedChunks := 0
    totalExpected := jsOrNat c.total c.count
    startTime := now
    finalized := false
    finalizedAt := none
    reassembled := false
    completeCapture := none }

/-- `https://service.example.com/jobs/${jobId}`. -/
def mkTrackUrl (jobId : String) : String :=
  "https://service.example.com/jobs/" ++ jobId

/-- `Array.prototype.sort` with the comparator
`([indexA], [indexB]) => indexA - indexB`: ascending by index.  The store
never holds two entries with the same index, so any correct ascending sort
models it; insertion sort is used so that the model evaluates by kernel
reduction. -/
def sortByIndex (l : List (Nat × ChunkRec)) : List (Nat × ChunkRec) :=
  l.insertionSort (fun a b => a.1 ≤ b.1)

/-- The bytes produced by `reassembleChunks`: sort the stored chunks by
index and join their `html` fields. -/
def reassembledHtml (chunks : List (Nat × ChunkRec)) : JStr :=
  ((sortByIndex chunks).map (fun p => p.2.html)).flatten

/-- The state change performed by `reassembleChunks(jobId)` on the job
(sorting, joining, recording `reassembled` and `completeCapture`). -/
def reassembleJob (jd : JobData) (now : Nat) : JobData :=
  { jd with
      reassembled := true
      completeCapture := some
        { meta := jd.metadata
          html := reassembledHtml jd.chunks
          chunksCount := jd.chunks.length
          reassembledAt := now
          processingTimeMs := now - jd.startTime } }

/-- The chunk branch of `app.post('/ingest')` (source lines 50–90): create
the job if absent, store the chunk (overwriting any prior entry for the
index), bump `receivedChunks`, reassemble when
`receivedChunks === totalExpected`, and answer 202.  The source's
`chunkStore.set`-if-absent followed by `chunkStore.get` is folded into
`(mapGet store c.jobId).getD (newJob c now)`. -/
def handleChunk (store : Store) (c : ChunkMsg) (now : Nat) : Store × Resp :=
  let jd0 := (mapGet store c.jobId).getD (newJob c now)
  let jd1 := { jd0 with
                 chunks := mapSet jd0.chunks c.index ⟨c.html, now⟩
                 receivedChunks := jd0.receivedChunks + 1 }
  let isComplete := jd1.receivedChunks == jd1.totalExpected
  let jd2 := if isComplete then reassembleJob jd1 now else jd1
  (mapSet store c.jobId jd2,
   .accepted c.jobId (mkTrackUrl c.jobId) (c.index + 1) jd1.totalExpected
     isComplete)

/-- `handleFinalization(payload, res)` (source lines 101–130): 404 for an
unknown job; otherwise set `finalized` and `finalizedAt`, reassemble if not
yet done and all chunks are in, and answer 200. -/
def handleFinalization (store : Store) (f : FinMsg) (now : Nat) :
    Store × Resp :=
  match mapGet store f.jobId with
  | none => (store, .notFound "Job not found")
  | some jd =>
      let jd1 := { jd with finalized := true, finalizedAt := some now }
      let jd2 := if !jd1.reassembled && (jd1.receivedChunks == jd1.totalExpected)
                 then reassembleJob jd1 now else jd1
      (mapSet store f.jobId jd2,
       .finalizedOk f.jobId jd2.receivedChunks jd2.totalExpected)

/-- `app.post('/ingest')`: the validation prologue and the dispatch. -/
def postIngest (store : Store) (msg : IngestMsg) (now : Nat) : Store × Resp :=
  match msg with
  | .fin f =>
      if f.version = "" then (store, .badRequest "Invalid payload format")
      else handleFinalization store f now
  | .chunk c =>
      if c.version = "" then (store, .badRequest "Invalid payload format")
      else if c.jobId = "" then (store, .badRequest "Missing jobId")
      else handleChunk store c now

/-- Deliver a sequence of messages, all stamped with the same clock value. -/
def deliverSeq (store : Store) (msgs : List IngestMsg) (now : Nat) : Store :=
  msgs.foldl (fun s m => (postIngest s m now).1) store

/-! ## Sorting lemmas for the reassembler -/

/-- Indexed chunk lists with pairwise-distinct indices have a unique
ascending ordering: sorting a list whose elements are `(i, g i)` for a set
of indices that is a permutation of `range n` yields the `range n` ordering. -/
theorem sortByIndex_map_of_perm_range (g : Nat → ChunkRec) (ord : List Nat)
    (n : Nat) (h : ord.Perm (List.range n)) :
    sortByIndex (ord.map fun i => (i, g i))
      = (List.range n).map fun i => (i, g i) := by
  haveI htot : IsTotal (Nat × ChunkRec) (fun a b => a.1 ≤ b.1) :=
    ⟨fun a b => Nat.le_total a.1 b.1⟩
  haveI htr : IsTrans (Nat × ChunkRec) (fun a b => a.1 ≤ b.1) :=
    ⟨fun _ _ _ h1 h2 => le_trans h1 h2⟩
  haveI : IsAntisymm (Nat × ChunkRec) (fun a b => a.1 < b.1) :=
    ⟨fun a b h1 h2 => absurd (lt_trans h1 h2) (lt_irrefl _)⟩
  have hperm : (sortByIndex (ord.map fun i => (i, g i))).Perm
      ((List.range n).map fun i => (i, g i)) :=
    (List.perm_insertionSort _ _).trans (h.map _)
  have hfst : (sortByIndex (ord.map fun i => (i, g i))).map Prod.fst
      |>.Perm (List.range n) := by
    have h0 := hperm.map Prod.fst
    rw [List.map_map] at h0
    have hmap : (List.range n).map (Prod.fst ∘ fun i => (i, g i))
        = List.range n := by
      simp [Function.comp_def]
    rwa [hmap] at h0
  have hnd : ((sortByIndex (ord.map fun i => (i, g i))).map Prod.fst).Nodup :=
    (hfst.symm).nodup (List.nodup_range n)
  have hle : (sortByIndex (ord.map fun i => (i, g i))).Pairwise
      (fun a b => a.1 ≤ b.1) :=
    List.sorted_insertionSort _ _
  have hne : (sortByIndex (ord.map fun i => (i, g i))).Pairwise
      (fun a b => a.1 ≠ b.1) := List.pairwise_map.mp hnd
  have hlt : (sortByIndex (ord.map fun i => (i, g i))).Pairwise
      (fun a b => a.1 < b.1) :=
    hle.imp₂ (fun _ _ h1 h2 => lt_of_le_of_ne h1 h2) hne
  have htgt : ((List.range n).map fun i => (i, g i)).Pairwise
      (fun a b => a.1 < b.1) :=
    List.pairwise_map.mpr (List.pairwise_lt_range n)
  exact List.eq_of_perm_of_sorted hperm hlt htgt

/-- C1's core: the indexed chunk list produced by the splitter is already in
ascending index order, so the reassembler's sort leaves it unchanged. -/
theorem reassembledHtml_enum_split (payload : JStr) (c now : Nat)
    (hc : 0 < c) :
    reassembledHtml
        ((splitIntoChunks payload c).enum.map fun p => (p.1, ⟨p.2, now⟩))
      = payload := by
  have hsorted :
      ((splitIntoChunks payload c).enum.map
          fun p => ((p.1, ⟨p.2, now⟩) : Nat × ChunkRec)).Pairwise
        (fun a b => a.1 ≤ b.1) := by
    rw [List.pairwise_map]
    have h1 : ((splitIntoChunks payload c).enum.map Prod.fst).Pairwise
        (· ≤ ·) := by
      rw [List.enum_map_fst]
      exact (List.pairwise_lt_range _).imp le_of_lt
    exact List.pairwise_map.mp h1
  rw [reassembledHtml, sortByIndex, List.Sorted.insertionSort_eq hsorted,
    List.map_map]
  have h2 : ((fun p : Nat × ChunkRec => p.2.html) ∘
      fun p : Nat × JStr => ((p.1, ⟨p.2, now⟩) : Nat × ChunkRec))
      = Prod.snd := rfl
  rw [h2, List.enum_map_snd]
  exact flatten_splitIntoChunks payload c hc

/-! ## Claims about the chunk splitter -/

/-- C1.  For every payload and chunk size `C > 0`, concatenating in index
order the chunks produced by `splitIntoChunks` — exactly what the server's
reassembler does with the indexed chunks (sort ascending by index, join) —
yields the original payload. -/
theorem chunkRoundTrip (payload : JStr) (c now : Nat) (hc : 0 < c) :
    reassembledHtml
        ((splitIntoChunks payload c).enum.map fun p => (p.1, ⟨p.2, now⟩))
      = payload :=
  reassembledHtml_enum_split payload c now hc

/-- Witness for C1 at payload `"abcdefg"`, chunk size 3. -/
theorem chunkRoundTrip_witness :
    0 < 3 ∧
    reassembledHtml
        ((splitIntoChunks "abcdefg".toList 3).enum.map fun p => (p.1, ⟨p.2, 0⟩))
      = "abcdefg".toList :=
  ⟨by decide, chunkRoundTrip "abcdefg".toList 3 0 (by decide)⟩

/-- C8 (amended).  The splitter produces exactly `⌈len/C⌉` chunks, and a
single chunk equal to the whole payload when `0 < len ≤ C`; the empty
payload yields zero chunks, not one. -/
theorem chunkCountLaw (payload : JStr) (c : Nat) (hc : 0 < c) :
    (splitIntoChunks payload c).length = (payload.length + c - 1) / c ∧
    (payload ≠ [] → payload.length ≤ c → splitIntoChunks payload c = [payload]) ∧
    splitIntoChunks [] c = [] :=
  ⟨length_splitIntoChunks payload c hc,
   fun hne hle => splitIntoChunks_single payload c hne hle,
   splitIntoChunks_nil c⟩

/-- Witness for C8 (amended) at a 7-character payload, chunk size 3. -/
theorem chunkCountLaw_witness :
    0 < 3 ∧
    ((splitIntoChunks "abcdefg".toList 3).length = ("abcdefg".toList.length + 3 - 1) / 3 ∧
     ("abcdefg".toList ≠ [] → "abcdefg".toList.length ≤ 3 →
        splitIntoChunks "abcdefg".toList 3 = ["abcdefg".toList]) ∧
     splitIntoChunks [] 3 = []) :=
  ⟨by decide, chunkCountLaw "abcdefg".toList 3 (by decide)⟩

/-- C8 counterexample: the claim asserts exactly one chunk whenever
`len(payload) ≤ C`, including the empty payload; but the splitter's loop body
never runs on an empty payload, so it yields zero chunks, not one. -/
theorem emptyPayloadZeroChunks :
    splitIntoChunks [] 5 = [] ∧ (splitIntoChunks [] 5).length ≠ 1 := by
  have h : splitIntoChunks ([] : JStr) 5 = [] := splitIntoChunks_nil 5
  exact ⟨h, by rw [h]; decide⟩

/-! ## Claims about the transport selector -/

/-- A concrete guidance record, standing for the fixed value
`getCSPGuidance()` builds from the configured endpoint and page location. -/
def gDemo : Guidance :=
  ⟨"This site's Content Security Policy blocks the bookmarklet.",
   ["Try the Swerve Helper Page"],
   "https://service.example.com/helper"⟩

/-- A transient server failure as thrown by `sendViaFetch` on a non-ok
response (`new Error("HTTP 500: Internal Server Error")`). -/
def err500 : JsError := ⟨"Error", "HTTP 500: Internal Server Error"⟩

/-- A CSP-classified failure: `TypeError: Failed to fetch`. -/
def cspTypeError : JsError := ⟨"TypeError", "Failed to fetch"⟩

/-- A CSP-classified failure by message text. -/
def cspPolicyError : JsError := ⟨"Error", "Blocked by Content Security Policy"⟩

/-- C3 (amended).  A Transient (non-CSP) failure on Tier 1 does not stop the
selector: the loop falls through to the remaining tiers on any error, and a
non-CSP error is terminal only on the last tier, where it is rethrown. -/
theorem fallbackOnAnyError (g : Guidance) (e : JsError) (o2 o3 : TierOutcome)
    (h : isCSPError e = false) :
    sendWithFallbacks g (.err e) o2 o3 = runFallbacks g [o2, o3] ∧
    attemptsUsed [.err e, o2, o3] = 1 + attemptsUsed [o2, o3] ∧
    runFallbacks g [.err e] = .thrown e := by
  refine ⟨?_, ?_, ?_⟩ <;> simp [sendWithFallbacks, runFallbacks, attemptsUsed, h]

/-- Witness for C3 (amended): an HTTP 500 on Tier 1, Tier 2 succeeding. -/
theorem fallbackOnAnyError_witness :
    isCSPError err500 = false ∧
    (sendWithFallbacks gDemo (.err err500) (.ok beaconResolve) (.ok formPostResolve)
        = runFallbacks gDemo [.ok beaconResolve, .ok formPostResolve] ∧
     attemptsUsed [.err err500, .ok beaconResolve, .ok formPostResolve]
        = 1 + attemptsUsed [.ok beaconResolve, .ok formPostResolve] ∧
     runFallbacks gDemo [.err err500] = .thrown err500) :=
  ⟨by decide,
   fallbackOnAnyError gDemo err500 (.ok beaconResolve) (.ok formPostResolve)
     (by decide)⟩

/-- C3 counterexample: Tier 1 fails with a Transient error
(`HTTP 500`, not CSP-classified), yet the send is not terminal — Tier 2 is
attempted (two tier invocations) and the overall result is its success. -/
theorem transientAdvancesTiers :
    isCSPError err500 = false ∧
    sendWithFallbacks gDemo (.err err500) (.ok beaconResolve)
        (.ok formPostResolve) = .success beaconResolve ∧
    attemptsUsed [.err err500, .ok beaconResolve, .ok formPostResolve] = 2 := by
  decide

/-- C7 (amended).  Tier 1 and Tier 2 failing CSP-classified with Tier 3
succeeding gives overall success with Tier 3's `form-post` method recorded;
all three tiers failing CSP-classified gives the terminal
`CSP_BLOCKED` result carrying the fixed guidance record — not the list of
attempts. -/
theorem cspEscalationToFormPost (g : Guidance) (e1 e2 : JsError)
    (h1 : isCSPError e1 = true) (h2 : isCSPError e2 = true) :
    (sendWithFallbacks g (.err e1) (.err e2) (.ok formPostResolve)
        = .success formPostResolve ∧
     formPostResolve.data = .methodTag "form-post") ∧
    ∀ e3, isCSPError e3 = true →
      sendWithFallbacks g (.err e1) (.err e2) (.err e3) = .cspBlocked g := by
  refine ⟨⟨?_, rfl⟩, ?_⟩
  · simp [sendWithFallbacks, runFallbacks, h1, h2, formPostResolve]
  · intro e3 h3
    simp [sendWithFallbacks, runFallbacks, h1, h2, h3]

/-- Witness for C7 (amended) at concrete CSP failures. -/
theorem cspEscalationToFormPost_witness :
    isCSPError cspTypeError = true ∧ isCSPError cspPolicyError = true ∧
    sendWithFallbacks gDemo (.err cspTypeError) (.err cspPolicyError)
        (.ok formPostResolve) = .success formPostResolve ∧
    sendWithFallbacks gDemo (.err cspTypeError) (.err cspPolicyError)
        (.err cspPolicyError) = .cspBlocked gDemo :=
  ⟨by decide, by decide,
   (cspEscalationToFormPost gDemo cspTypeError cspPolicyError (by decide)
      (by decide)).1.1,
   (cspEscalationToFormPost gDemo cspTypeError cspPolicyError (by decide)
      (by decide)).2 cspPolicyError (by decide)⟩

/-- C7 counterexample: the terminal all-blocked result does not carry the
ordered list of attempts — two runs with different errors in every tier
produce the identical result object. -/
theorem cspBlockedCarriesNoAttempts :
    sendWithFallbacks gDemo (.err cspTypeError) (.err cspTypeError)
        (.err cspTypeError)
      = sendWithFallbacks gDemo (.err cspPolicyError) (.err cspPolicyError)
          (.err cspPolicyError) ∧
    cspTypeError ≠ cspPolicyError := by
  decide

/-! ## Claims about the server job store -/

theorem postIngest_chunk (store : Store) (c : ChunkMsg) (now : Nat)
    (hv : c.version ≠ "") (hj : c.jobId ≠ "") :
    postIngest store (.chunk c) now = handleChunk store c now := by
  simp [postIngest, hv, hj]

theorem postIngest_fin (store : Store) (f : FinMsg) (now : Nat)
    (hv : f.version ≠ "") :
    postIngest store (.fin f) now = handleFinalization store f now := by
  simp [postIngest, hv]

/-! ### Concrete fixtures used by witnesses and counterexamples -/

/-- First chunk of a two-chunk job: index 0, `total = 2`, bytes `"aa"`. -/
def wMsg0 : ChunkMsg :=
  { version := "0", jobId := "j", page := ⟨"u", "t"⟩, selectionText := "",
    selectionHtml := "", capturedAt := "t0", client := ⟨"0.1.0", "en"⟩,
    html := "aa".toList, index := 0, count := 2, total := some 2,
    isLast := false }

/-- A duplicate delivery of index 0 with different bytes `"bb"`. -/
def wMsgDup : ChunkMsg := { wMsg0 with html := "bb".toList }

/-- Second chunk of the job: index 1, bytes `"bb"`. -/
def wMsg1 : ChunkMsg := { wMsg0 with index := 1, html := "bb".toList, isLast := true }

/-- Index-1 chunk claiming a mismatched `total = 3`. -/
def wMsg1Mis : ChunkMsg := { wMsg1 with total := some 3 }

/-- Index-1 chunk claiming a mismatched `total = 7`. -/
def wMsg1Tot7 : ChunkMsg := { wMsg1 with total := some 7 }

/-- The job state after `wMsg0` was delivered at time 0. -/
def wJd1 : JobData :=
  { chunks := [(0, ⟨"aa".toList, 0⟩)],
    metadata := extractMetadata wMsg0, receivedChunks := 1,
    totalExpected := 2, startTime := 0, finalized := false,
    finalizedAt := none, reassembled := false, completeCapture := none }

/-- A store holding that single job under `"j"`. -/
def wStore1 : Store := [("j", wJd1)]

/-- C2 (amended).  A duplicate delivery for an already-seen index leaves the
number of distinct stored indices unchanged and overwrites the bytes
(last-write-wins), but it does increment `receivedChunks`, and the job is
marked complete exactly when that raw delivery counter — not the
distinct-index count — reaches `totalExpected`. -/
theorem duplicateDelivery (s : Store) (c : ChunkMsg) (now : Nat)
    (jd : JobData) (hv : c.version ≠ "") (hj : c.jobId ≠ "")
    (hget : mapGet s c.jobId = some jd)
    (hdup : (mapGet jd.chunks c.index).isSome) :
    ∃ jd', mapGet (postIngest s (.chunk c) now).1 c.jobId = some jd' ∧
      jd'.chunks.length = jd.chunks.length ∧
      mapGet jd'.chunks c.index = some ⟨c.html, now⟩ ∧
      jd'.receivedChunks = jd.receivedChunks + 1 ∧
      (jd'.reassembled = true ↔
        (jd.receivedChunks + 1 = jd.totalExpected ∨ jd.reassembled = true)) := by
  rw [postIngest_chunk s c now hv hj]
  simp only [handleChunk, hget, Option.getD_some]
  refine ⟨_, mapGet_mapSet_self s c.jobId _, ?_, ?_, ?_, ?_⟩
  · by_cases hcomp : (jd.receivedChunks + 1 == jd.totalExpected) = true <;>
      simp [hcomp, reassembleJob, length_mapSet_of_mem jd.chunks _ hdup]
  · by_cases hcomp : (jd.receivedChunks + 1 == jd.totalExpected) = true <;>
      simp [hcomp, reassembleJob, mapGet_mapSet_self]
  · by_cases hcomp : (jd.receivedChunks + 1 == jd.totalExpected) = true <;>
      simp [hcomp, reassembleJob]
  · by_cases hcomp : (jd.receivedChunks + 1 == jd.totalExpected) = true
    · have heq : jd.receivedChunks + 1 = jd.totalExpected := by simpa using hcomp
      simp [hcomp, reassembleJob, heq]
    · have hne2 : jd.receivedChunks + 1 ≠ jd.totalExpected := by simpa using hcomp
      simp [hcomp, hne2]

/-- Witness for C2 (amended): a two-chunk job receiving index 0 twice. -/
theorem duplicateDelivery_witness :
    ∃ jd', mapGet (postIngest wStore1 (.chunk wMsgDup) 1).1 wMsgDup.jobId = some jd' ∧
      jd'.chunks.length = wJd1.chunks.length ∧
      mapGet jd'.chunks wMsgDup.index = some ⟨wMsgDup.html, 1⟩ ∧
      jd'.receivedChunks = wJd1.receivedChunks + 1 ∧
      (jd'.reassembled = true ↔
        (wJd1.receivedChunks + 1 = wJd1.totalExpected ∨ wJd1.reassembled = true)) :=
  duplicateDelivery wStore1 wMsgDup 1 wJd1 (by decide) (by decide) (by decide)
    (by decide)

/-- C2 counterexample: with `totalExpected = 2`, delivering index 0 twice
(and index 1 never) marks the job complete and reassembles, although only
one distinct index was stored — completion is keyed to the raw delivery
count, not the distinct-index count. -/
theorem duplicateTriggersEarlyComplete :
    (mapGet (deliverSeq [] [.chunk wMsg0, .chunk wMsgDup] 0) "j").map
        (fun jd => (jd.reassembled, jd.chunks.length, jd.totalExpected))
      = some (true, 1, 2) := by
  decide

/-- C4 (amended).  A chunk message for an existing job is accepted with a
202 response even when its `total` disagrees with the job's recorded
`totalExpected`: the server performs no such validation, persists the
chunk's bytes, and keeps the originally recorded total. -/
theorem mismatchedTotalAccepted (s : Store) (c : ChunkMsg) (now : Nat)
    (jd : JobData) (hv : c.version ≠ "") (hj : c.jobId ≠ "")
    (hget : mapGet s c.jobId = some jd)
    (hmis : jsOrNat c.total c.count ≠ jd.totalExpected) :
    (postIngest s (.chunk c) now).2
        = .accepted c.jobId (mkTrackUrl c.jobId) (c.index + 1) jd.totalExpected
            (jd.receivedChunks + 1 == jd.totalExpected) ∧
    ∃ jd', mapGet (postIngest s (.chunk c) now).1 c.jobId = some jd' ∧
      mapGet jd'.chunks c.index = some ⟨c.html, now⟩ ∧
      jd'.totalExpected = jd.totalExpected := by
  rw [postIngest_chunk s c now hv hj]
  simp only [handleChunk, hget, Option.getD_some]
  refine ⟨by trivial, _, mapGet_mapSet_self s c.jobId _, ?_, ?_⟩
  · by_cases hcomp : (jd.receivedChunks + 1 == jd.totalExpected) = true <;>
      simp [hcomp, reassembleJob, mapGet_mapSet_self]
  · by_cases hcomp : (jd.receivedChunks + 1 == jd.totalExpected) = true <;>
      simp [hcomp, reassembleJob]

/-- Witness for C4 (amended): a job recorded with `totalExpected = 2`
receiving a chunk that claims `total = 3`. -/
theorem mismatchedTotalAccepted_witness :
    (postIngest wStore1 (.chunk wMsg1Mis) 1).2
        = .accepted wMsg1Mis.jobId (mkTrackUrl wMsg1Mis.jobId)
            (wMsg1Mis.index + 1) wJd1.totalExpected
            (wJd1.receivedChunks + 1 == wJd1.totalExpected) ∧
    ∃ jd', mapGet (postIngest wStore1 (.chunk wMsg1Mis) 1).1 wMsg1Mis.jobId
        = some jd' ∧
      mapGet jd'.chunks wMsg1Mis.index = some ⟨wMsg1Mis.html, 1⟩ ∧
      jd'.totalExpected = wJd1.totalExpected :=
  mismatchedTotalAccepted wStore1 wMsg1Mis 1 wJd1 (by decide) (by decide)
    (by decide) (by decide)

/-- C4 counterexample: the mismatched-total chunk is answered 202 (not 400)
and its bytes are persisted, with the recorded total silently kept. -/
theorem mismatchedTotalNotRejected :
    (postIngest wStore1 (.chunk wMsg1Mis) 0).2
        = .accepted "j" (mkTrackUrl "j") 2 2 true ∧
    (mapGet (postIngest wStore1 (.chunk wMsg1Mis) 0).1 "j").map
        (fun jd => ((mapGet jd.chunks 1).map ChunkRec.html, jd.totalExpected))
      = some (some "bb".toList, 2) := by
  decide

/-- C10.  The `totalExpected` recorded when a job is created is never
changed by a later chunk message for the same job, whatever `total` that
message carries. -/
theorem totalExpectedStable (s : Store) (c : ChunkMsg) (now : Nat)
    (jd : JobData) (hv : c.version ≠ "") (hj : c.jobId ≠ "")
    (hget : mapGet s c.jobId = some jd) :
    ∃ jd', mapGet (postIngest s (.chunk c) now).1 c.jobId = some jd' ∧
      jd'.totalExpected = jd.totalExpected := by
  rw [postIngest_chunk s c now hv hj]
  simp only [handleChunk, hget, Option.getD_some]
  refine ⟨_, mapGet_mapSet_self s c.jobId _, ?_⟩
  by_cases hcomp : (jd.receivedChunks + 1 == jd.totalExpected) = true <;>
    simp [hcomp, reassembleJob]

/-- Witness for C10: a second chunk carrying `total = 7` leaves the recorded
value 2 unchanged. -/
theorem totalExpectedStable_witness :
    ∃ jd', mapGet (postIngest wStore1 (.chunk wMsg1Tot7) 1).1 wMsg1Tot7.jobId
        = some jd' ∧
      jd'.totalExpected = wJd1.totalExpected :=
  totalExpectedStable wStore1 wMsg1Tot7 1 wJd1 (by decide) (by decide)
    (by decide)

/-- C9.  Processing a finalization message leaves the job's chunk map,
delivery counter, metadata, recorded total and start time unchanged; it sets
only the finalized flag and timestamp (and, when reassembly is triggered,
the reassembly-result fields). -/
theorem finalizationFrame (s : Store) (f : FinMsg) (now : Nat)
    (jd : JobData) (hv : f.version ≠ "")
    (hget : mapGet s f.jobId = some jd) :
    ∃ jd', mapGet (postIngest s (.fin f) now).1 f.jobId = some jd' ∧
      jd'.chunks = jd.chunks ∧
      jd'.receivedChunks = jd.receivedChunks ∧
      jd'.metadata = jd.metadata ∧
      jd'.totalExpected = jd.totalExpected ∧
      jd'.startTime = jd.startTime ∧
      jd'.finalized = true ∧
      jd'.finalizedAt = some now := by
  rw [postIngest_fin s f now hv]
  simp only [handleFinalization, hget]
  refine ⟨_, mapGet_mapSet_self s f.jobId _, ?_⟩
  by_cases hcomp :
      (!jd.reassembled && (jd.receivedChunks == jd.totalExpected)) = true <;>
    simp [hcomp, reassembleJob]

/-- Witness for C9 at a mid-transfer job. -/
theorem finalizationFrame_witness :
    ∃ jd', mapGet (postIngest wStore1 (.fin ⟨"0", "j"⟩) 5).1 "j" = some jd' ∧
      jd'.chunks = wJd1.chunks ∧
      jd'.receivedChunks = wJd1.receivedChunks ∧
      jd'.metadata = wJd1.metadata ∧
      jd'.totalExpected = wJd1.totalExpected ∧
      jd'.startTime = wJd1.startTime ∧
      jd'.finalized = true ∧
      jd'.finalizedAt = some 5 :=
  finalizationFrame wStore1 ⟨"0", "j"⟩ 5 wJd1 (by decide) (by decide)


/-- The finalization message used by the C6 witness. -/
def wFin : FinMsg := ⟨"0", "j"⟩

/-- Helper for C6 (a): a finalization processed while one chunk is still
missing, followed by that last chunk, leaves the job finalized and
reassembled. -/
theorem finalizeEarly (s : Store) (f : FinMsg) (c : ChunkMsg)
    (now₁ now₂ : Nat) (jd : JobData)
    (hvf : f.version ≠ "") (hvc : c.version ≠ "") (hcj : c.jobId = f.jobId)
    (hne : f.jobId ≠ "") (hget : mapGet s f.jobId = some jd)
    (hcount : jd.receivedChunks + 1 = jd.totalExpected) :
    ∃ jd', mapGet (postIngest (postIngest s (.fin f) now₁).1
        (.chunk c) now₂).1 f.jobId = some jd' ∧
      jd'.finalized = true ∧ jd'.reassembled = true := by
  have hbeq : (jd.receivedChunks == jd.totalExpected) = false := by
    simp; omega
  have hbeq2 : (jd.receivedChunks + 1 == jd.totalExpected) = true := by
    simpa using hcount
  rw [postIngest_fin s f now₁ hvf]
  simp only [handleFinalization, hget, hbeq, Bool.and_false]
  rw [postIngest_chunk _ c now₂ hvc (by rw [hcj]; exact hne)]
  simp only [Bool.false_eq_true, if_false, handleChunk, hcj,
    mapGet_mapSet_self, Option.getD_some]
  refine ⟨_, rfl, ?_, ?_⟩ <;> simp [hbeq2, reassembleJob]

/-- Helper for C6 (b): processing the same finalization twice changes the
store exactly as processing it once (idempotence). -/
theorem finalizeIdem (s : Store) (f : FinMsg) (now : Nat) :
    (postIngest (postIngest s (.fin f) now).1 (.fin f) now).1
      = (postIngest s (.fin f) now).1 := by
  by_cases hv : f.version = ""
  · simp [postIngest, hv]
  · rw [postIngest_fin s f now hv, postIngest_fin _ f now hv]
    cases hget : mapGet s f.jobId with
    | none => simp [handleFinalization, hget]
    | some jd =>
        simp only [handleFinalization, hget]
        by_cases hc :
            (!jd.reassembled && (jd.receivedChunks == jd.totalExpected))
              = true <;>
          simp [handleFinalization, hc, reassembleJob, mapGet_mapSet_self,
            mapSet_mapSet_self]

/-- Helper for C6 (c): finalization for an unknown job is answered 404. -/
theorem finalizeUnknown (s : Store) (f : FinMsg) (now : Nat)
    (hv : f.version ≠ "") (hget : mapGet s f.jobId = none) :
    postIngest s (.fin f) now = (s, .notFound "Job not found") := by
  rw [postIngest_fin s f now hv]
  simp [handleFinalization, hget]

/-- C6.  (a) A finalization arriving before the final chunk still yields a
finalized and reassembled job once the last chunk arrives; (b) processing
the same finalization again is a no-op on the store (idempotent, in
particular after the job is already complete); (c) finalization for an
unknown job is answered with the not-found error. -/
theorem finalizationBehavior :
    (∀ (s : Store) (f : FinMsg) (c : ChunkMsg) (now₁ now₂ : Nat)
       (jd : JobData),
       f.version ≠ "" → c.version ≠ "" → c.jobId = f.jobId → f.jobId ≠ "" →
       mapGet s f.jobId = some jd →
       jd.receivedChunks + 1 = jd.totalExpected →
       ∃ jd', mapGet (postIngest (postIngest s (.fin f) now₁).1
           (.chunk c) now₂).1 f.jobId = some jd' ∧
         jd'.finalized = true ∧ jd'.reassembled = true) ∧
    (∀ (s : Store) (f : FinMsg) (now : Nat),
       (postIngest (postIngest s (.fin f) now).1 (.fin f) now).1
         = (postIngest s (.fin f) now).1) ∧
    (∀ (s : Store) (f : FinMsg) (now : Nat),
       f.version ≠ "" → mapGet s f.jobId = none →
       postIngest s (.fin f) now = (s, .notFound "Job not found")) :=
  ⟨fun s f c now₁ now₂ jd hvf hvc hcj hne hget hcount =>
      finalizeEarly s f c now₁ now₂ jd hvf hvc hcj hne hget hcount,
   finalizeIdem,
   fun s f now hv hget => finalizeUnknown s f now hv hget⟩

/-- Witness for C6: the job of `wStore1` (one of two chunks received) is
finalized early and then completed by the index-1 chunk; re-finalizing is a
no-op on the store; finalizing an unknown job on the empty store is answered
not-found. -/
theorem finalizationBehavior_witness :
    (∃ jd', mapGet (postIngest (postIngest wStore1 (.fin wFin) 5).1
        (.chunk wMsg1) 6).1 wFin.jobId = some jd' ∧
      jd'.finalized = true ∧ jd'.reassembled = true) ∧
    (postIngest (postIngest wStore1 (.fin wFin) 5).1 (.fin wFin) 5).1
      = (postIngest wStore1 (.fin wFin) 5).1 ∧
    postIngest [] (.fin wFin) 0 = ([], .notFound "Job not found") :=
  ⟨finalizationBehavior.1 wStore1 wFin wMsg1 5 6 wJd1 (by decide) (by decide)
     (by decide) (by decide) (by decide) (by decide),
   finalizationBehavior.2.1 wStore1 wFin 5,
   finalizationBehavior.2.2 [] wFin 0 (by decide) (by decide)⟩


/-! ## Out-of-order delivery (Scenario D) -/

/-- The chunk message with index `i` of an `n`-chunk transfer for job `jid`
whose payload bytes per index are given by `bytes`. -/
def mkChunkMsg (jid : String) (n : Nat) (bytes : Nat → JStr) (i : Nat) :
    ChunkMsg :=
  { version := "0", jobId := jid, page := ⟨"url", "title"⟩,
    selectionText := "", selectionHtml := "", capturedAt := "t",
    client := ⟨"0.1.0", "en"⟩,
    html := bytes i, index := i, count := n, total := some n,
    isLast := i + 1 == n }

/-- The job state after the distinct indices `done` (in arrival order) have
been delivered and no reassembly has happened. -/
def rawJob (jid : String) (n : Nat) (bytes : Nat → JStr) (now : Nat)
    (done : List Nat) : JobData :=
  { chunks := done.map fun i => (i, ⟨bytes i, now⟩)
    metadata := extractMetadata (mkChunkMsg jid n bytes 0)
    receivedChunks := done.length
    totalExpected := n
    startTime := now
    finalized := false
    finalizedAt := none
    reassembled := false
    completeCapture := none }

/-- The job state after the distinct indices `done` were delivered,
reassembled exactly when all `n` arrived. -/
def jobAfter (jid : String) (n : Nat) (bytes : Nat → JStr) (now : Nat)
    (done : List Nat) : JobData :=
  if done.length = n then reassembleJob (rawJob jid n bytes now done) now
  else rawJob jid n bytes now done

theorem mkChunkMsg_jobId (jid : String) (n : Nat) (bytes : Nat → JStr)
    (i : Nat) : (mkChunkMsg jid n bytes i).jobId = jid := rfl

theorem mkChunkMsg_index (jid : String) (n : Nat) (bytes : Nat → JStr)
    (i : Nat) : (mkChunkMsg jid n bytes i).index = i := rfl

theorem mkChunkMsg_html (jid : String) (n : Nat) (bytes : Nat → JStr)
    (i : Nat) : (mkChunkMsg jid n bytes i).html = bytes i := rfl

theorem mapGet_map_pair_of_not_mem (g : Nat → ChunkRec) (done : List Nat)
    (i : Nat) (h : i ∉ done) :
    mapGet (done.map fun j => (j, g j)) i = none := by
  induction done with
  | nil => simp [mapGet]
  | cons j rest ih =>
      simp only [List.mem_cons, not_or] at h
      simp [mapGet, Ne.symm h.1, ih h.2]

theorem newJob_mkChunkMsg (jid : String) (n : Nat) (bytes : Nat → JStr)
    (now : Nat) (i : Nat) :
    newJob (mkChunkMsg jid n bytes i) now = rawJob jid n bytes now [] := by
  simp [newJob, rawJob, mkChunkMsg, extractMetadata, jsOrNat]

/-- One delivery of a fresh index `i` advances the job state from
`rawJob done` to `jobAfter (done ++ [i])`. -/
theorem handleChunk_step (jid : String) (n : Nat) (bytes : Nat → JStr)
    (now : Nat) (s : Store) (done : List Nat) (i : Nat)
    (hget : (mapGet s jid).getD (newJob (mkChunkMsg jid n bytes i) now)
        = rawJob jid n bytes now done)
    (hfresh : i ∉ done) :
    handleChunk s (mkChunkMsg jid n bytes i) now
      = (mapSet s jid (jobAfter jid n bytes now (done ++ [i])),
         .accepted jid (mkTrackUrl jid) (i + 1) n (done.length + 1 == n)) := by
  have hset : mapSet (done.map fun j => ((j, ⟨bytes j, now⟩) : Nat × ChunkRec))
      i ⟨bytes i, now⟩ = (done ++ [i]).map fun j => (j, ⟨bytes j, now⟩) := by
    rw [mapSet_of_not_mem _ _ (mapGet_map_pair_of_not_mem _ done i hfresh)]
    simp
  simp only [handleChunk, mkChunkMsg_jobId, mkChunkMsg_index, mkChunkMsg_html,
    hget]
  simp only [rawJob, hset, jobAfter, List.length_append, List.length_cons,
    List.length_nil, Nat.add_zero]
  by_cases hcomp : (done.length + 1 == n) = true
  · have heq : done.length + 1 = n := by simpa using hcomp
    simp [hcomp, heq, reassembleJob, rawJob]
  · have hne2 : ¬(done.length + 1 = n) := by simpa using hcomp
    simp [hcomp, hne2, rawJob]

/-- Delivering the fresh indices `rest` on top of the state for `done`
advances the job state to that for `done ++ rest`. -/
theorem deliverSeq_go (jid : String) (n : Nat) (bytes : Nat → JStr)
    (now : Nat) (hjid : jid ≠ "") (rest : List Nat) :
    ∀ (done : List Nat), (done ++ rest).Nodup → done ≠ [] →
      done.length + rest.length ≤ n →
      deliverSeq [(jid, jobAfter jid n bytes now done)]
        (rest.map fun i => .chunk (mkChunkMsg jid n bytes i)) now
        = [(jid, jobAfter jid n bytes now (done ++ rest))] := by
  induction rest with
  | nil => intro done _ _ _; simp [deliverSeq]
  | cons i rest ih =>
      intro done hnd hne hlen
      have hlt : done.length < n := by
        simp only [List.length_cons] at hlen; omega
      have hja : jobAfter jid n bytes now done = rawJob jid n bytes now done :=
        if_neg (by omega)
      have hfresh : i ∉ done := by
        rw [List.nodup_append] at hnd
        exact fun hmem => hnd.2.2 hmem (List.mem_cons_self i rest)
      simp only [List.map_cons, deliverSeq, List.foldl_cons]
      rw [postIngest_chunk _ _ now (by simp [mkChunkMsg])
        (by simpa [mkChunkMsg] using hjid)]
      rw [handleChunk_step jid n bytes now _ done i
        (by simp [mapGet, hja]) hfresh]
      have hstore : mapSet [(jid, jobAfter jid n bytes now done)] jid
          (jobAfter jid n bytes now (done ++ [i]))
          = [(jid, jobAfter jid n bytes now (done ++ [i]))] := by
        simp [mapSet]
      simp only [hstore]
      have := ih (done ++ [i])
        (by rwa [List.append_assoc, List.singleton_append])
        (by simp)
        (by simp only [List.length_append, List.length_cons,
              List.length_nil] at hlen ⊢; omega)
      rw [show (done ++ [i]) ++ rest = done ++ i :: rest by
        rw [List.append_assoc, List.singleton_append]] at this
      simpa [deliverSeq] using this

/-- Delivering a nodup list of indices to the empty store produces exactly
the job state for that list. -/
theorem deliverSeq_all (jid : String) (n : Nat) (bytes : Nat → JStr)
    (now : Nat) (hjid : jid ≠ "") (ord : List Nat)
    (hnd : ord.Nodup) (hlen : ord.length ≤ n) (hne : ord ≠ []) :
    deliverSeq [] (ord.map fun i => .chunk (mkChunkMsg jid n bytes i)) now
      = [(jid, jobAfter jid n bytes now ord)] := by
  cases ord with
  | nil => exact absurd rfl hne
  | cons i rest =>
      simp only [List.map_cons, deliverSeq, List.foldl_cons]
      rw [postIngest_chunk _ _ now (by simp [mkChunkMsg])
        (by simpa [mkChunkMsg] using hjid)]
      rw [handleChunk_step jid n bytes now [] [] i
        (by simp [mapGet, newJob_mkChunkMsg]) (by simp)]
      simp only [mapSet, List.nil_append]
      have := deliverSeq_go jid n bytes now hjid rest [i]
        (by simpa using hnd)
        (by simp)
        (by simp only [List.length_cons] at hlen
            simp only [List.length_singleton]
            omega)
      simpa [deliverSeq] using this

/-- The reassembled bytes for a job whose stored indices are a permutation
of `range n` follow ascending index order. -/
theorem reassembledHtml_of_perm (bytes : Nat → JStr) (now : Nat)
    (ord : List Nat) (n : Nat) (hperm : ord.Perm (List.range n)) :
    reassembledHtml (ord.map fun i => (i, ⟨bytes i, now⟩))
      = ((List.range n).map bytes).flatten := by
  rw [reassembledHtml,
    sortByIndex_map_of_perm_range (fun i => ⟨bytes i, now⟩) ord n hperm,
    List.map_map]
  rfl

/-- C5.  Delivering the `n` chunks of a job in any arrival order `ord`
(a permutation of `0..n-1`) leaves the job unreassembled after every proper
prefix and reassembled exactly after the last chunk, with the reassembled
bytes following ascending index order, not arrival order. -/
theorem outOfOrderDelivery (jid : String) (n : Nat) (bytes : Nat → JStr)
    (now : Nat) (ord : List Nat) (hjid : jid ≠ "")
    (hperm : ord.Perm (List.range n)) (hn : 0 < n) :
    (∀ k, k < n → ∀ jd,
       mapGet (deliverSeq []
           ((ord.take k).map fun i => .chunk (mkChunkMsg jid n bytes i)) now)
         jid = some jd → jd.reassembled = false) ∧
    ∃ jd, mapGet (deliverSeq []
           (ord.map fun i => .chunk (mkChunkMsg jid n bytes i)) now) jid
         = some jd ∧ jd.reassembled = true ∧
       jd.completeCapture.map Capture.html
         = some ((List.range n).map bytes).flatten := by
  have hlen : ord.length = n := by
    simpa using hperm.length_eq
  have hnd : ord.Nodup := (hperm.symm).nodup (List.nodup_range n)
  constructor
  · intro k hk jd hgetjd
    cases Nat.eq_zero_or_pos k with
    | inl h0 =>
        subst h0
        simp [deliverSeq, mapGet] at hgetjd
    | inr hpos =>
        have hklen : (ord.take k).length = k := by
          simp [List.length_take]; omega
        rw [deliverSeq_all jid n bytes now hjid (ord.take k)
          (hnd.sublist (List.take_sublist k ord))
          (by omega)
          (by rw [← List.length_pos]; omega)] at hgetjd
        simp only [mapGet, if_pos rfl] at hgetjd
        have hjd : jobAfter jid n bytes now (ord.take k) = jd := by
          simpa using hgetjd
        subst hjd
        simp [jobAfter, rawJob, hklen, Nat.ne_of_lt hk]
  · rw [deliverSeq_all jid n bytes now hjid ord hnd (by omega)
      (by rw [← List.length_pos]; omega)]
    refine ⟨jobAfter jid n bytes now ord, by simp [mapGet], ?_, ?_⟩
    · simp [jobAfter, hlen, reassembleJob]
    · simp only [jobAfter, hlen, if_pos rfl, reassembleJob, rawJob]
      simp [reassembledHtml_of_perm bytes now ord n hperm]


/-- Witness for C5: Scenario D, arrival order `[2,0,3,1]` for a 4-chunk job. -/
theorem outOfOrderDelivery_witness :
    ("j" : String) ≠ "" ∧ ([2, 0, 3, 1] : List Nat).Perm (List.range 4) ∧
    0 < 4 ∧
    ∃ jd, mapGet (deliverSeq []
        (([2, 0, 3, 1] : List Nat).map fun i =>
          .chunk (mkChunkMsg "j" 4 (fun j => List.replicate (j + 1) 'z') i)) 0)
        "j" = some jd ∧ jd.reassembled = true ∧
      jd.completeCapture.map Capture.html
        = some ((List.range 4).map fun j => List.replicate (j + 1) 'z').flatten :=
  ⟨by decide, by decide, by decide,
   (outOfOrderDelivery "j" 4 (fun j => List.replicate (j + 1) 'z') 0
      [2, 0, 3, 1] (by decide) (by decide) (by decide)).2⟩

end Swerve
